import Mathlib

/-!
Verification of the statistics data model of the `profiling` repository
(`profiling/stats.py`): the abstract `Statistics` contract (derived
aggregates, hashing, rendering, pickling hooks), the lock-guarded mutable
`RecordingStatistics` tree, the `VoidRecordingStatistics` variant, the
`FrozenStatistics` snapshot form, and the `StatisticsMeta` default-value
mechanism.

Conventions of the embedding:
* Python floats are modelled as rationals (`ℚ`); the arithmetic the code
  performs on them (`+`, `-`, `max`, comparison with `0.`) is exact there.
* Python exceptions (`KeyError`, `AttributeError`, `TypeError`) are
  modelled with `Option`/`Except`.
* Mutable object state lives in an explicit heap (association list from
  object ids to node records); object identity is the heap id.
* Recursions through the heap take a fuel argument (`Nat`); the Python
  code recurses over a finite acyclic tree, which any sufficient fuel
  simulates.

The file lists every definition first, then every theorem.
-/

namespace Profiling

/-! Part 1 of the definitions: the shared Statistics contract over a pure
node tree.  `Statistics.deep_count` and `Statistics.own_time` (stats.py
lines 98-110) are computed from `self.own_count`, `self.deep_time` and
iteration over the children, uniformly for every node kind.  The kinds
differ only in how the `own_count` and `deep_time` reads resolve:
`VoidRecordingStatistics` redefines `own_count` to a constant 0 and
`deep_time` to the sum of the children's `deep_time` (stats.py lines
242-250); the other kinds read the stored slot. -/

/-- The concrete node kinds of stats.py: `Statistics` itself,
`RecordingStatistics`, `VoidRecordingStatistics`, `FrozenStatistics`. -/
inductive SKind where
  | plain
  | recording
  | void
  | frozen
deriving DecidableEq

mutual
/-- A statistics node: kind, the identity attributes `name`, `filename`,
`lineno`, `module`, the stored `own_count` and `deep_time` slots, and the
children exposed by iteration. -/
inductive SNode where
  | mk : SKind → Option String → Option String → Option Nat → Option String →
      Nat → ℚ → SForest → SNode

/-- The children of a statistics node (a list of nodes). -/
inductive SForest where
  | nil : SForest
  | cons : SNode → SForest → SForest
end

def SNode.kind : SNode → SKind
  | .mk k _ _ _ _ _ _ _ => k

def SNode.children : SNode → SForest
  | .mk _ _ _ _ _ _ _ cs => cs

/-- Reading `own_count`: `VoidRecordingStatistics.own_count` is the
property `lambda x: 0`; every other kind reads the stored slot. -/
def readOwnCount (k : SKind) (oc : Nat) : Nat :=
  match k with
  | .void => 0
  | _ => oc

/-- The `own_count` attribute read of a node. -/
def SNode.own_count (n : SNode) : Nat :=
  match n with
  | .mk k _ _ _ _ oc _ _ => readOwnCount k oc

mutual
/-- The `deep_time` attribute read: `VoidRecordingStatistics.deep_time` is
the property `lambda x: sum(s.deep_time for s in x)`; every other kind
reads the stored slot. -/
def SNode.deep_time : SNode → ℚ
  | .mk k _ _ _ _ _ dt cs =>
    match k with
    | .void => SForest.deepTimeSum cs
    | _ => dt

/-- Sum of the `deep_time` reads of a list of nodes
(`sum(s.deep_time for s in x)`). -/
def SForest.deepTimeSum : SForest → ℚ
  | .nil => 0
  | .cons n f => SNode.deep_time n + SForest.deepTimeSum f
end

mutual
/-- Embeds `Statistics.deep_count` (stats.py line 104):
`self.own_count + sum(stats.deep_count for stats in self)`. -/
def SNode.deep_count : SNode → Nat
  | .mk k _ _ _ _ oc _ cs => readOwnCount k oc + SForest.deepCountSum cs

/-- Sum of the `deep_count` values of a list of nodes. -/
def SForest.deepCountSum : SForest → Nat
  | .nil => 0
  | .cons n f => SNode.deep_count n + SForest.deepCountSum f
end

/-- Embeds `Statistics.own_time` (stats.py lines 106-110):
`sub_time = sum(stats.deep_time for stats in self);
 return max(0., self.deep_time - sub_time)`. -/
def SNode.own_time (n : SNode) : ℚ :=
  max 0 (n.deep_time - SForest.deepTimeSum n.children)

/-- Writing the `own_count` attribute: on a void node the property setter
is `_ignore` (stats.py line 247), so the write is dropped; on other kinds
the slot is assigned. -/
def SNode.setOwnCount : SNode → Nat → SNode
  | .mk k nm fn l md oc dt cs, v =>
    match k with
    | .void => .mk k nm fn l md oc dt cs
    | _ => .mk k nm fn l md v dt cs

/-- Writing the `deep_time` attribute, analogously. -/
def SNode.setDeepTime : SNode → ℚ → SNode
  | .mk k nm fn l md oc dt cs, q =>
    match k with
    | .void => .mk k nm fn l md oc dt cs
    | _ => .mk k nm fn l md oc q cs

/-- The children of a node as a plain list. -/
def SForest.toList : SForest → List SNode
  | .nil => []
  | .cons n f => n :: SForest.toList f

def SNode.childList (n : SNode) : List SNode :=
  n.children.toList

/-- A concrete void node wrapping two children with deep_time 1.0 and 1.5
(the scenario of spec section 8). -/
def voidExample : SNode :=
  .mk .void none none none none 0 0
    (.cons (.mk .recording (some "a") none none none 0 1
      .nil)
    (.cons (.mk .recording (some "b") none none none 0 (3 / 2)
      .nil)
    .nil))

/-! Part 2 of the definitions: association lists.  Python dicts keyed by
hashable values, restricted to the operations the source uses: lookup
(`m[k]`), assignment (`m[k] = v`, replacing in place or appending,
preserving insertion order), deletion (`del m[k]` / `m.pop(k, None)`). -/

def lookupKV {α β : Type} [DecidableEq α] : List (α × β) → α → Option β
  | [], _ => none
  | (a, b) :: rest, key => if key = a then some b else lookupKV rest key

def setKV {α β : Type} [DecidableEq α] : List (α × β) → α → β → List (α × β)
  | [], key, v => [(key, v)]
  | (a, b) :: rest, key, v =>
    if key = a then (key, v) :: rest else (a, b) :: setKV rest key v

def delKV {α β : Type} [DecidableEq α] : List (α × β) → α → List (α × β)
  | [], _ => []
  | (a, b) :: rest, key => if key = a then rest else (a, b) :: delKV rest key

/-- The largest key of a Nat-keyed association list (0 when empty). -/
def maxKeyNat {β : Type} : List (Nat × β) → Nat
  | [] => 0
  | (j, _) :: rest => max j (maxKeyNat rest)

/-! Part 3 of the definitions: the live recording tree, heap-based.
`RecordingStatistics` objects are mutable and shared; the embedding gives
each one an id in an explicit heap.  A node record carries the fields the
constructor sets (stats.py lines 172-175): `code`, the child map
`_children` (keyed by code object), and the slots `own_count`,
`deep_time` set by the class defaults; plus the concrete kind
(`RecordingStatistics` or `VoidRecordingStatistics`).  The lock is
concurrency bookkeeping with no data content; the lock discipline is
modelled separately below. -/

/-- A code object, the call-site identity the profiler passes in: the
fields of it that stats.py reads. -/
structure Code where
  co_name : String
  co_filename : String
  co_firstlineno : Nat
deriving DecidableEq

abbrev NodeId := Nat

/-- The two constructible recording kinds. -/
inductive RKind where
  | recording
  | void
deriving DecidableEq

/-- The mutable state of one live recording node. -/
structure RNode where
  kind : RKind
  code : Option Code
  ownCount : Nat
  deepTime : ℚ
  children : List (Code × NodeId)
deriving DecidableEq

abbrev Heap := List (NodeId × RNode)

/-- A fresh object id: strictly above every id in the heap. -/
def freshId (h : Heap) : NodeId :=
  maxKeyNat h + 1

/-- Embeds `RecordingStatistics.__init__` plus the class defaults: a new
node of the given kind seeded with the identity `code`, empty child map,
`own_count = 0`, `deep_time = 0.0`. -/
def newChild (k : RKind) (code : Code) : RNode :=
  { kind := k, code := some code, ownCount := 0, deepTime := 0, children := [] }

/-- Embeds `RecordingStatistics.get_child` (stats.py lines 203-205):
`self._children[code]`; `KeyError` is `none`. -/
def get_child (h : Heap) (self : NodeId) (code : Code) : Option NodeId :=
  (lookupKV h self).bind fun n => lookupKV n.children code

/-- Embeds `RecordingStatistics.add_child` (lines 207-209):
`self._children[code] = stats`. -/
def add_child (h : Heap) (self : NodeId) (code : Code) (child : NodeId) : Heap :=
  match lookupKV h self with
  | none => h
  | some n => setKV h self { n with children := setKV n.children code child }

/-- Embeds `RecordingStatistics.remove_child` (lines 211-213):
`del self._children[code]`; `KeyError` on an absent key is `none`. -/
def remove_child (h : Heap) (self : NodeId) (code : Code) : Option Heap :=
  match lookupKV h self with
  | none => none
  | some n =>
    match lookupKV n.children code with
    | none => none
    | some _ => some (setKV h self { n with children := delKV n.children code })

/-- Embeds `RecordingStatistics.discard_child` (lines 215-217):
`self._children.pop(code, None)`. -/
def discard_child (h : Heap) (self : NodeId) (code : Code) : Heap :=
  match lookupKV h self with
  | none => h
  | some n => setKV h self { n with children := delKV n.children code }

/-- Embeds `RecordingStatistics.ensure_child` (lines 219-227): return the
existing child for `code`, or construct a node of `adding_stat_class or
type(self)` seeded with `code`, insert it, and return it.  The result
pairs the heap after the call with the returned object id. -/
def ensure_child (h : Heap) (self : NodeId) (code : Code)
    (addingKind : Option RKind) : Option (Heap × NodeId) :=
  match lookupKV h self with
  | none => none
  | some n =>
    match lookupKV n.children code with
    | some cid => some (h, cid)
    | none =>
      let nid := freshId h
      let stats := newChild (addingKind.getD n.kind) code
      some (setKV (setKV h nid stats) self
        { n with children := setKV n.children code nid }, nid)

/-- The `len(self._children)` read of a live node. -/
def child_count (h : Heap) (i : NodeId) : Nat :=
  match lookupKV h i with
  | none => 0
  | some n => n.children.length

def codeW : Code := ⟨"f", "a.py", 3⟩

def rootW : RNode := ⟨.recording, none, 0, 0, []⟩

def heapW : Heap := [(0, rootW)]

def childW : RNode := ⟨.recording, some codeW, 0, 0, []⟩

def rootW2 : RNode := ⟨.recording, none, 0, 0, [(codeW, 1)]⟩

def heapW2 : Heap := [(0, rootW2), (1, childW)]

/-! Part 4 of the definitions: frozen snapshots.
`FrozenStatistics.__init__` (stats.py lines 259-270) copies the values of
the slots `name`, `filename`, `lineno`, `module`, `own_count`,
`deep_time` out of the live node (each read going through the live
node's properties) and recursively freezes each current child, producing
an object that holds no reference into the live tree.  With no source
node it produces an empty frozen node whose attribute slots stay unset
(`attrs = none` here). -/

/-- The six attribute slots of a frozen node, when they have been set. -/
structure FrozenAttrs where
  name : Option String
  filename : Option String
  lineno : Option Nat
  module : Option String
  own_count : Nat
  deep_time : ℚ
deriving DecidableEq

/-- A frozen statistics node: the (possibly unset) attribute slots and
the fixed child list. -/
inductive FrozenStatistics where
  | mk : Option FrozenAttrs → List FrozenStatistics → FrozenStatistics

def FrozenStatistics.attrs : FrozenStatistics → Option FrozenAttrs
  | .mk a _ => a

def FrozenStatistics.children : FrozenStatistics → List FrozenStatistics
  | .mk _ cs => cs

/-- Embeds `RecordingStatistics.name` (stats.py lines 177-184): `None`
without a code object or for a module-level frame, else `code.co_name`. -/
def RNode.nameAttr (n : RNode) : Option String :=
  match n.code with
  | none => none
  | some c => if c.co_name = "<module>" then none else some c.co_name

/-- Embeds `RecordingStatistics.filename` (lines 186-188):
`self.code and self.code.co_filename`. -/
def RNode.filenameAttr (n : RNode) : Option String :=
  n.code.map Code.co_filename

/-- Embeds `RecordingStatistics.lineno` (lines 190-192):
`self.code and self.code.co_firstlineno`. -/
def RNode.linenoAttr (n : RNode) : Option Nat :=
  n.code.map Code.co_firstlineno

/-- Embeds `RecordingStatistics.module` (lines 194-201): resolved through
`inspect.getmodule`, an external collaborator modelled as the parameter
`gm`. -/
def RNode.moduleAttr (gm : Code → Option String) (n : RNode) : Option String :=
  n.code.bind gm

/-- The `own_count` read of a live node: 0 on a void node (property
`lambda x: 0`), the stored slot otherwise. -/
def RNode.ownCountAttr (n : RNode) : Nat :=
  match n.kind with
  | .void => 0
  | .recording => n.ownCount

/-- The `deep_time` reads of the nodes with the given ids, summed:
on a void node `deep_time` is `sum(s.deep_time for s in x)` over its
children, so the read recurses through the heap; fuel bounds the
recursion depth, `none` meaning exhaustion. -/
def deepTimeList (h : Heap) : Nat → List NodeId → Option ℚ
  | 0, _ => none
  | _ + 1, [] => some 0
  | fuel + 1, i :: rest => do
    let n ← lookupKV h i
    let q ← match n.kind with
      | .recording => some n.deepTime
      | .void => deepTimeList h fuel (n.children.map Prod.snd)
    let s ← deepTimeList h fuel rest
    pure (q + s)

/-- The `deep_time` read of one live node. -/
def RNode.deepTimeAttr (h : Heap) (fuel : Nat) (n : RNode) : Option ℚ :=
  match n.kind with
  | .recording => some n.deepTime
  | .void => deepTimeList h fuel (n.children.map Prod.snd)

/-- Freeze the live nodes with the given ids, in order
(`FrozenStatistics._freeze_children` composed with
`FrozenStatistics.__init__`): copy the six attribute reads of each node
and recurse over its current children. -/
def freezeList (gm : Code → Option String) (h : Heap) :
    Nat → List NodeId → Option (List FrozenStatistics)
  | 0, _ => none
  | _ + 1, [] => some []
  | fuel + 1, i :: rest => do
    let n ← lookupKV h i
    let dt ← n.deepTimeAttr h (fuel + 1)
    let cs ← freezeList gm h fuel (n.children.map Prod.snd)
    let fs ← freezeList gm h fuel rest
    pure (FrozenStatistics.mk
      (some { name := n.nameAttr, filename := n.filenameAttr,
              lineno := n.linenoAttr, module := n.moduleAttr gm,
              own_count := n.ownCountAttr, deep_time := dt }) cs :: fs)

/-- Embeds `FrozenStatistics(stats)` on the live node `i`. -/
def freeze (gm : Code → Option String) (h : Heap) (fuel : Nat)
    (i : NodeId) : Option FrozenStatistics :=
  match freezeList gm h fuel [i] with
  | some [f] => some f
  | _ => none

/-- Embeds `stats.own_count += k` on a live node: the read yields the
property value; on a void node the setter `_ignore` drops the write. -/
def inc_own_count (h : Heap) (i : NodeId) (k : Nat) : Heap :=
  match lookupKV h i with
  | none => h
  | some n =>
    match n.kind with
    | .void => h
    | .recording => setKV h i { n with ownCount := n.ownCount + k }

/-- Embeds `stats.deep_time += q` on a live node, analogously. -/
def add_deep_time (h : Heap) (i : NodeId) (q : ℚ) : Heap :=
  match lookupKV h i with
  | none => h
  | some n =>
    match n.kind with
    | .void => h
    | .recording => setKV h i { n with deepTime := n.deepTime + q }

/-- The operations a profiler session interleaves on the live tree and
the snapshots a consumer takes. -/
inductive Event where
  | incOwn (i : NodeId) (k : Nat)
  | addTime (i : NodeId) (q : ℚ)
  | addChild (i : NodeId) (c : Code) (child : NodeId)
  | removeChild (i : NodeId) (c : Code)
  | discardChild (i : NodeId) (c : Code)
  | ensureChild (i : NodeId) (c : Code) (k : Option RKind)
  | snapshot (fuel : Nat) (i : NodeId)

/-- A session state: the live heap plus every frozen snapshot produced
so far (held by consumers). -/
structure Sys where
  heap : Heap
  snaps : List FrozenStatistics

def stepEvent (gm : Code → Option String) (e : Event) (s : Sys) : Sys :=
  match e with
  | .incOwn i k => { s with heap := inc_own_count s.heap i k }
  | .addTime i q => { s with heap := add_deep_time s.heap i q }
  | .addChild i c j => { s with heap := add_child s.heap i c j }
  | .removeChild i c => { s with heap := (remove_child s.heap i c).getD s.heap }
  | .discardChild i c => { s with heap := discard_child s.heap i c }
  | .ensureChild i c k =>
    { s with heap := match ensure_child s.heap i c k with
      | some (h2, _) => h2
      | none => s.heap }
  | .snapshot fuel i =>
    match freeze gm s.heap fuel i with
    | some t => { s with snaps := s.snaps ++ [t] }
    | none => s

def runEvents (gm : Code → Option String) : List Event → Sys → Sys
  | [], s => s
  | e :: es, s => runEvents gm es (stepEvent gm e s)

def gmW : Code → Option String := fun _ => none

def liveRootW : RNode := ⟨.recording, none, 2, 3, [(codeW, 1)]⟩

def liveChildW : RNode := ⟨.recording, some codeW, 5, 2, []⟩

def liveHeapW : Heap := [(0, liveRootW), (1, liveChildW)]

def frozenW : FrozenStatistics :=
  .mk (some ⟨none, none, none, none, 2, 3⟩)
    [.mk (some ⟨some "f", some "a.py", some 3, none, 5, 2⟩) []]

/-! Part 5 of the definitions: hashing and equality of statistics nodes.
`Statistics.__hash__` (stats.py lines 142-144) hashes the triple
`(self.name, self.filename, self.lineno)`.  No `__eq__` is defined
anywhere in the class hierarchy, so `==` between two statistics objects
is the default object identity comparison. -/

/-- The attribute values of one statistics object. -/
structure StatFields where
  name : Option String
  filename : Option String
  lineno : Option Nat
  module : Option String
  own_count : Nat
  deep_time : ℚ
deriving DecidableEq

/-- A statistics object: its identity (heap id) and its attributes. -/
structure StatObject where
  oid : Nat
  fields : StatFields
deriving DecidableEq

/-- Embeds `Statistics.__hash__`:
`hash((self.name, self.filename, self.lineno))`.  Python's `hash` is a
fixed function of the triple, so the hash is modelled by the triple it is
computed from: two objects hash identically exactly when the model values
agree. -/
def stats_hash (s : StatFields) : Option String × Option String × Option Nat :=
  (s.name, s.filename, s.lineno)

/-- Python `==` between two statistics objects: the class defines no
`__eq__`, so the default identity comparison (`a is b`) applies. -/
def py_eq (a b : StatObject) : Bool :=
  a.oid == b.oid

/-- Two distinct statistics objects agreeing on `(name, filename, lineno)`
but differing in the counters. -/
def statObjA : StatObject := ⟨0, ⟨some "f", some "a.py", some 3, none, 5, 1⟩⟩

def statObjB : StatObject := ⟨1, ⟨some "f", some "a.py", some 3, none, 7, 2⟩⟩

/-! Part 6 of the definitions: serialization hooks.
`RecordingStatistics.__getstate__` (stats.py lines 238-239) raises
`TypeError('Cannot dump recording statistics')` unconditionally: a live
mutable node declares itself unserializable.  `Statistics.__reduce__`
(lines 137-140) reduces a node to its class together with the flat list
`[getattr(self, attr) for attr in self.__slots__]`, reconstructed by
`stats_from_members` (lines 31-35); for a frozen node the slots are the
six attributes and `_children`. -/

/-- Embeds `RecordingStatistics.__getstate__`: always raises, for every
live recording node (void nodes inherit it). -/
def recording_getstate (_self : RNode) : Except String Unit :=
  Except.error "Cannot dump recording statistics"

/-- Embeds `Statistics.__reduce__` on a frozen node: collect the slot
values; reading an unset slot raises `AttributeError` (the first slot
read is `name`). -/
def frozen_reduce (f : FrozenStatistics) :
    Except String (FrozenAttrs × List FrozenStatistics) :=
  match f.attrs with
  | none => Except.error "AttributeError: name"
  | some a => Except.ok (a, f.children)

/-- Embeds `stats_from_members` specialised to the frozen class: rebuild
the node from its flat member list. -/
def frozen_from_members (a : FrozenAttrs) (cs : List FrozenStatistics) :
    FrozenStatistics :=
  .mk (some a) cs

/-! Part 7 of the definitions: the lock discipline of the child map.
Each child-map access of RecordingStatistics (stats.py lines 203-236) is
recorded as the map operation it performs together with the number of
holds on the node's own reentrant lock at the moment of the access;
`with self.lock:` raises the depth of the enclosed accesses by one. -/

/-- The child-map operations. -/
inductive MapOp where
  | lookup
  | insert
  | delete
  | existCheck
deriving DecidableEq

/-- One access to the child map at some lock depth. -/
structure MapAccess where
  op : MapOp
  lockDepth : Nat
deriving DecidableEq

/-- Embeds `with self.lock:` around a block: every access inside it sees
one more hold of the reentrant lock. -/
def withLock (t : List MapAccess) : List MapAccess :=
  t.map fun a => { a with lockDepth := a.lockDepth + 1 }

/-- The accesses of `get_child`: one lookup, inside `with self.lock`. -/
def get_child_accesses : List MapAccess := withLock [⟨.lookup, 0⟩]

/-- The accesses of `add_child`: one insertion, inside `with self.lock`. -/
def add_child_accesses : List MapAccess := withLock [⟨.insert, 0⟩]

/-- The accesses of `remove_child`: one deletion, inside
`with self.lock`. -/
def remove_child_accesses : List MapAccess := withLock [⟨.delete, 0⟩]

/-- The accesses of `discard_child`: one deletion (`pop(code, None)`),
inside `with self.lock`. -/
def discard_child_accesses : List MapAccess := withLock [⟨.delete, 0⟩]

/-- The accesses of `ensure_child`: under `with self.lock` it calls
`get_child` and, when the identity is absent, `add_child`; the inner
methods re-acquire the reentrant lock, so their accesses sit at
depth 2. -/
def ensure_child_accesses (present : Bool) : List MapAccess :=
  withLock (get_child_accesses ++ if present then [] else add_child_accesses)

/-- The accesses of `__contains__` (lines 235-236):
`code in self._children`, with no lock acquisition around it. -/
def contains_accesses : List MapAccess := [⟨.existCheck, 0⟩]

/-! Part 8 of the definitions: the default-value mechanism.
`StatisticsMeta` (stats.py lines 46-69): `__new__` pops the `default(...)`
declarations out of the class body being created — for the attributes of
that body's own `__slots__` — into that class's `__defaults__`; `__call__`
then sets, on a freshly constructed instance, each attribute of
`cls.__defaults__` the instance does not already have.  Each class object
gets its own `__defaults__`, which shadows the base class's on lookup. -/

abbrev Attr := String

/-- The Python values appearing as defaults or attribute values;
`pyObj` stands for any further object (a list, a lock, a code object). -/
inductive PyVal where
  | pyNone
  | pyInt (n : Int)
  | pyFloat (q : ℚ)
  | pyStr (s : String)
  | pyObj (tag : String)
deriving DecidableEq

/-- A class in the hierarchy, as the metaclass sees it: the `__slots__`
of its own body and the `default(...)` declarations of its own body. -/
structure ClsDef where
  slots : List Attr
  declared : List (Attr × PyVal)

/-- Embeds `StatisticsMeta.__new__` (lines 48-62): the class's
`__defaults__` — the declared defaults for the attributes of its own
`__slots__`. -/
def compute_defaults (c : ClsDef) : List (Attr × PyVal) :=
  c.slots.filterMap fun a => (lookupKV c.declared a).map fun v => (a, v)

/-- Embeds `StatisticsMeta.__call__` (lines 64-69): set each default the
instance does not already have. -/
def apply_defaults (ds : List (Attr × PyVal)) (inst : List (Attr × PyVal)) :
    List (Attr × PyVal) :=
  match ds with
  | [] => inst
  | (a, v) :: rest =>
    apply_defaults rest (if (lookupKV inst a).isSome then inst else inst ++ [(a, v)])

/-- Constructing an instance of class `c` whose `__init__` set exactly
`inits`: the metaclass applies the class's own resolved defaults (only —
`cls.__defaults__` shadows the base class's). -/
def construct (c : ClsDef) (inits : List (Attr × PyVal)) : List (Attr × PyVal) :=
  apply_defaults (compute_defaults c) inits

/-- The `Statistics` class body (stats.py lines 72-85). -/
def StatisticsCls : ClsDef :=
  { slots := ["name", "filename", "lineno", "module", "own_count", "deep_time"],
    declared := [("name", .pyNone), ("filename", .pyNone), ("lineno", .pyNone),
      ("module", .pyNone), ("own_count", .pyInt 0), ("deep_time", .pyFloat 0)] }

/-- The `RecordingStatistics` class body (lines 164-169): it re-declares
the `own_count` and `deep_time` defaults for its own slots. -/
def RecordingStatisticsCls : ClsDef :=
  { slots := ["own_count", "deep_time", "code", "lock", "_children"],
    declared := [("own_count", .pyInt 0), ("deep_time", .pyFloat 0)] }

/-- The `VoidRecordingStatistics` class body (lines 242-250): its
`own_count`/`deep_time` are plain properties, not `default(...)`
declarations, so nothing is collected. -/
def VoidRecordingStatisticsCls : ClsDef :=
  { slots := ["code", "lock", "_children"], declared := [] }

/-- The `FrozenStatistics` class body (lines 253-257): slots only, no
`default(...)` declarations of its own. -/
def FrozenStatisticsCls : ClsDef :=
  { slots := ["name", "filename", "lineno", "module", "own_count",
      "deep_time", "_children"],
    declared := [] }

/-! Part 9 of the definitions: reads on a frozen node.  The attribute
reads and derived properties of `FrozenStatistics` instances; on the
empty frozen node (`FrozenStatistics()`) the six attribute slots are
unset and reading them raises `AttributeError`. -/

/-- Embeds `FrozenStatistics()`: no source node — empty child list,
attribute slots left unset (stats.py lines 259-262). -/
def empty_frozen : FrozenStatistics :=
  .mk none []

/-- The `len(frozen)` read (lines 275-276). -/
def frozen_len (f : FrozenStatistics) : Nat :=
  f.children.length

def FrozenStatistics.get_name (f : FrozenStatistics) : Except String (Option String) :=
  match f.attrs with
  | none => Except.error "AttributeError: name"
  | some a => Except.ok a.name

def FrozenStatistics.get_module (f : FrozenStatistics) : Except String (Option String) :=
  match f.attrs with
  | none => Except.error "AttributeError: module"
  | some a => Except.ok a.module

def FrozenStatistics.get_own_count (f : FrozenStatistics) : Except String Nat :=
  match f.attrs with
  | none => Except.error "AttributeError: own_count"
  | some a => Except.ok a.own_count

def FrozenStatistics.get_deep_time (f : FrozenStatistics) : Except String ℚ :=
  match f.attrs with
  | none => Except.error "AttributeError: deep_time"
  | some a => Except.ok a.deep_time

mutual
/-- Embeds `Statistics.deep_count` evaluated on a frozen node:
`self.own_count + sum(stats.deep_count for stats in self)`, the left
operand read first. -/
def frozen_deep_count : FrozenStatistics → Except String Nat
  | .mk none _ => Except.error "AttributeError: own_count"
  | .mk (some a) cs => do
    let s ← frozen_deep_count_sum cs
    pure (a.own_count + s)

/-- Sum of the children's `deep_count`. -/
def frozen_deep_count_sum : List FrozenStatistics → Except String Nat
  | [] => Except.ok 0
  | c :: cs => do
    let x ← frozen_deep_count c
    let s ← frozen_deep_count_sum cs
    pure (x + s)
end

/-- Embeds `sum(stats.deep_time for stats in self)` on a frozen node:
each child's stored `deep_time` attribute, no deeper recursion. -/
def frozen_child_time_sum : List FrozenStatistics → Except String ℚ
  | [] => Except.ok 0
  | c :: cs => do
    let q ← c.get_deep_time
    let s ← frozen_child_time_sum cs
    pure (q + s)

/-- Embeds `Statistics.own_time` evaluated on a frozen node: the
children's `deep_time` sum is computed first, then `self.deep_time` is
read. -/
def frozen_own_time (f : FrozenStatistics) : Except String ℚ := do
  let sub ← frozen_child_time_sum f.children
  let dt ← f.get_deep_time
  pure (max 0 (dt - sub))

/-- Embeds `Statistics.regular_name` (lines 91-96): join module and name
with a colon when both are present, else whichever is present. -/
def frozen_regular_name (f : FrozenStatistics) : Except String (Option String) := do
  let nm ← f.get_name
  let md ← f.get_module
  match nm, md with
  | some n, some m => pure (some (m ++ ":" ++ n))
  | _, _ => pure (nm <|> md)

/-- A rational rendered as a plain fraction; Python's fixed-point float
formatting (`.6f`) is abstracted to an exact rendering, which the claims
never inspect digit by digit. -/
def fmtQ (q : ℚ) : String :=
  toString q.num ++ "/" ++ toString q.den

/-- Embeds `Statistics.__repr__` (lines 146-161), the rendered short
form, on a frozen node: reads `regular_name`, then `deep_count`,
`own_count`, `own_time`, `deep_time`, and assembles the string. -/
def frozen_repr (f : FrozenStatistics) : Except String String := do
  let rn ← frozen_regular_name f
  let name_string := match rn with
    | some s => "\x27" ++ s ++ "\x27 "
    | none => ""
  let dc ← frozen_deep_count f
  let oc ← f.get_own_count
  let count_string := if oc = dc then toString oc
    else toString oc ++ "/" ++ toString dc
  let ot ← frozen_own_time f
  let dt ← f.get_deep_time
  pure ("<FrozenStatistics " ++ name_string ++ "count=" ++ count_string
    ++ " time=" ++ fmtQ ot ++ "/" ++ fmtQ dt ++ ">")

/-! Helper lemmas. -/

theorem deepCountSum_eq_sum_map :
    ∀ f : SForest, SForest.deepCountSum f = (f.toList.map SNode.deep_count).sum
  | .nil => rfl
  | .cons n f => by
    rw [SForest.deepCountSum, deepCountSum_eq_sum_map f, SForest.toList]
    simp

theorem deepTimeSum_eq_sum_map :
    ∀ f : SForest, SForest.deepTimeSum f = (f.toList.map SNode.deep_time).sum
  | .nil => rfl
  | .cons n f => by
    rw [SForest.deepTimeSum, deepTimeSum_eq_sum_map f, SForest.toList]
    simp

theorem lookupKV_setKV_self {α β : Type} [DecidableEq α]
    (l : List (α × β)) (k : α) (v : β) : lookupKV (setKV l k v) k = some v := by
  induction l with
  | nil => simp [setKV, lookupKV]
  | cons p rest ih =>
    obtain ⟨a, b⟩ := p
    by_cases h : k = a
    · simp [setKV, h, lookupKV]
    · simp [setKV, h, lookupKV, ih]

theorem lookupKV_setKV_ne {α β : Type} [DecidableEq α]
    (l : List (α × β)) (k k' : α) (v : β) (h : k' ≠ k) :
    lookupKV (setKV l k v) k' = lookupKV l k' := by
  induction l with
  | nil => simp [setKV, lookupKV, h]
  | cons p rest ih =>
    obtain ⟨a, b⟩ := p
    by_cases hk : k = a
    · subst hk
      simp [setKV, lookupKV, h]
    · by_cases hk' : k' = a
      · simp [setKV, hk, lookupKV, hk']
      · simp [setKV, hk, lookupKV, hk', ih]

theorem lookupKV_none_of_gt {β : Type} (l : List (Nat × β)) (i : Nat)
    (h : maxKeyNat l < i) : lookupKV l i = none := by
  induction l with
  | nil => rfl
  | cons p rest ih =>
    obtain ⟨j, b⟩ := p
    have hj : j < i := lt_of_le_of_lt (le_max_left _ _) h
    have hr : maxKeyNat rest < i := lt_of_le_of_lt (le_max_right _ _) h
    have hne : i ≠ j := by omega
    simp [lookupKV, hne, ih hr]

theorem freshId_not_in (h : Heap) : lookupKV h (freshId h) = none :=
  lookupKV_none_of_gt h _ (Nat.lt_succ_self _)

theorem ne_freshId_of_in (h : Heap) (i : NodeId) (n : RNode)
    (hi : lookupKV h i = some n) : i ≠ freshId h := by
  intro he
  rw [he, freshId_not_in h] at hi
  exact Option.noConfusion hi

theorem setKV_length_of_not_mem {α β : Type} [DecidableEq α]
    (l : List (α × β)) (k : α) (v : β) (h : lookupKV l k = none) :
    (setKV l k v).length = l.length + 1 := by
  induction l with
  | nil => rfl
  | cons p rest ih =>
    obtain ⟨a, b⟩ := p
    by_cases hk : k = a
    · rw [lookupKV, if_pos hk] at h
      exact Option.noConfusion h
    · rw [lookupKV, if_neg hk] at h
      simp [setKV, hk, ih h]

theorem get?_append_of_get? {α : Type} (l1 l2 : List α) (i : Nat) (a : α)
    (h : l1.get? i = some a) : (l1 ++ l2).get? i = some a := by
  induction l1 generalizing i with
  | nil => simp [List.get?] at h
  | cons x xs ih =>
    cases i with
    | zero => simpa using h
    | succ j =>
      have := ih j (by simpa using h)
      simpa using this

theorem lookupKV_append {α β : Type} [DecidableEq α]
    (l1 l2 : List (α × β)) (a : α) :
    lookupKV (l1 ++ l2) a = (lookupKV l1 a <|> lookupKV l2 a) := by
  induction l1 with
  | nil => rfl
  | cons p rest ih =>
    obtain ⟨b, v⟩ := p
    by_cases hab : a = b
    · simp [lookupKV, hab]
    · simp [lookupKV, hab, ih]

theorem lookup_apply_defaults (ds inst : List (Attr × PyVal)) (a : Attr) :
    lookupKV (apply_defaults ds inst) a = (lookupKV inst a <|> lookupKV ds a) := by
  induction ds generalizing inst with
  | nil =>
    cases hi : lookupKV inst a <;> simp [apply_defaults, hi, lookupKV]
  | cons p rest ih =>
    obtain ⟨b, v⟩ := p
    rw [apply_defaults, ih]
    by_cases hb : (lookupKV inst b).isSome
    · rw [if_pos hb]
      by_cases hab : a = b
      · subst hab
        obtain ⟨w, hw⟩ := Option.isSome_iff_exists.mp hb
        simp [lookupKV, hw]
      · simp [lookupKV, hab]
    · rw [if_neg hb]
      rw [lookupKV_append]
      by_cases hab : a = b
      · subst hab
        have hnone : lookupKV inst a = none := Option.not_isSome_iff_eq_none.mp hb
        simp [lookupKV, hnone]
      · simp [lookupKV, hab]

/-! Theorems for the claims. -/

/-- C1: for every statistics node N, of any node kind, the derived
aggregate `deep_count(N)` equals `own_count(N)` plus the sum of
`deep_count(c)` over every direct child c of N. -/
theorem deep_count_spec (n : SNode) :
    n.deep_count = n.own_count + (n.childList.map SNode.deep_count).sum := by
  cases n with
  | mk k nm fn l md oc dt cs =>
    show readOwnCount k oc + SForest.deepCountSum cs
        = readOwnCount k oc + (cs.toList.map SNode.deep_count).sum
    rw [deepCountSum_eq_sum_map]

/-- C2: for every statistics node N, `own_time(N)` equals
`max(0, deep_time(N) - Σ deep_time(c) for c in children(N))`, and in
particular `own_time(N)` is never negative — also when the children's
summed deep_time exceeds the node's own deep_time, since the whole
quantifier carries no restriction relating the two. -/
theorem own_time_spec (n : SNode) :
    n.own_time = max 0 (n.deep_time - (n.childList.map SNode.deep_time).sum)
      ∧ 0 ≤ n.own_time := by
  constructor
  · rw [SNode.own_time, SNode.childList, deepTimeSum_eq_sum_map]
  · exact le_max_left 0 _

/-- C3: once a frozen snapshot of a live (sub)tree has been produced,
any subsequent mutation of the live tree — incrementing counters,
accumulating time, adding, removing or find-or-creating children, or
taking further snapshots — leaves the already-produced snapshot exactly
as it was: every attribute value and the whole child structure of the
frozen value are unchanged, because freezing copied the live values into
fresh objects and the frozen tree shares no mutable state with the
heap. -/
theorem frozen_snapshot_unaffected (gm : Code → Option String)
    (es : List Event) (s : Sys) (i : Nat) (t : FrozenStatistics)
    (hsnap : s.snaps.get? i = some t) :
    (runEvents gm es s).snaps.get? i = some t := by
  induction es generalizing s with
  | nil => exact hsnap
  | cons e es ih =>
    refine ih _ ?_
    cases e with
    | incOwn j k => exact hsnap
    | addTime j q => exact hsnap
    | addChild j c child => exact hsnap
    | removeChild j c => exact hsnap
    | discardChild j c => exact hsnap
    | ensureChild j c k => exact hsnap
    | snapshot fuel j =>
      show (match freeze gm s.heap fuel j with
        | some t2 => { s with snaps := s.snaps ++ [t2] }
        | none => s).snaps.get? i = some t
      cases hf : freeze gm s.heap fuel j with
      | none => simpa using hsnap
      | some t2 =>
        simpa using get?_append_of_get? s.snaps [t2] i t hsnap

theorem frozen_snapshot_unaffected_witness :
    (runEvents gmW
      [Event.incOwn 1 4, Event.addTime 1 1, Event.removeChild 0 codeW,
       Event.ensureChild 0 codeW (some RKind.void)]
      (stepEvent gmW (Event.snapshot 3 0) (Sys.mk liveHeapW []))).snaps.get? 0
      = some frozenW :=
  frozen_snapshot_unaffected gmW _ _ 0 frozenW (by rfl)

/-- C4: for every void recording node V, `own_count(V)` reads as 0,
writes to `own_count` and `deep_time` are ignored (so reads stay 0
regardless of attempted writes), and `deep_time(V)` is computed on each
read as the sum of the children's `deep_time` rather than being stored. -/
theorem void_node_reads (n : SNode) (h : n.kind = SKind.void) (v : Nat) (q : ℚ) :
    n.own_count = 0
      ∧ (n.setOwnCount v).own_count = 0
      ∧ n.setOwnCount v = n
      ∧ n.setDeepTime q = n
      ∧ n.deep_time = (n.childList.map SNode.deep_time).sum := by
  cases n with
  | mk k nm fn l md oc dt cs =>
    have hk : k = SKind.void := h
    subst hk
    refine ⟨rfl, rfl, rfl, rfl, ?_⟩
    show SForest.deepTimeSum cs = (cs.toList.map SNode.deep_time).sum
    rw [deepTimeSum_eq_sum_map]

theorem void_node_reads_witness :
    voidExample.kind = SKind.void
      ∧ (voidExample.setOwnCount 7).own_count = 0
      ∧ voidExample.own_count = 0
      ∧ voidExample.deep_time = 5 / 2 :=
  ⟨rfl, (void_node_reads voidExample rfl 7 1).2.1,
    (void_node_reads voidExample rfl 7 1).1, by
      norm_num [voidExample, SNode.deep_time, SForest.deepTimeSum]⟩

/-- C5 counterexample: two statistics objects constructed with identical
`(name, filename, lineno)` but different counters hash identically, yet —
the class defining `__hash__` but no `__eq__` — they do NOT compare
equal: `==` falls back to object identity, refuting the claim that
equality is determined by the triple. -/
theorem stats_eq_counterexample :
    stats_hash statObjA.fields = stats_hash statObjB.fields
      ∧ statObjA.fields.own_count ≠ statObjB.fields.own_count
      ∧ py_eq statObjA statObjB = false := by
  decide

/-- C5 amended: the hash of a statistics node is determined solely by
`(name, filename, lineno)` — nodes agreeing on the triple hash
identically whatever their counters — but equality is object identity
(no `__eq__` is defined): two node objects compare equal exactly when
they are the same object, so distinct nodes compare unequal even with an
identical triple, and in particular when any of the three fields
differs. -/
theorem hash_and_identity_spec (a b : StatObject) :
    (a.fields.name = b.fields.name → a.fields.filename = b.fields.filename →
      a.fields.lineno = b.fields.lineno →
      stats_hash a.fields = stats_hash b.fields)
      ∧ (py_eq a b = true ↔ a.oid = b.oid) := by
  constructor
  · intro h1 h2 h3
    rw [stats_hash, stats_hash, h1, h2, h3]
  · rw [py_eq]
    exact beq_iff_eq

theorem hash_and_identity_spec_witness :
    stats_hash statObjA.fields = stats_hash statObjB.fields
      ∧ (py_eq statObjA statObjB = true ↔ statObjA.oid = statObjB.oid) :=
  ⟨(hash_and_identity_spec statObjA statObjB).1 rfl rfl rfl,
    (hash_and_identity_spec statObjA statObjB).2⟩

/-- C6: attempting to serialize a live mutable recording node always
fails with the not-serializable `TypeError` guard — for every live node,
of either recording kind, whatever its state; a frozen node (with its
attributes set, as every node `freeze` produces) does serialize: its
reduction succeeds, yielding the flat member list from which
`stats_from_members` reconstructs the node exactly. -/
theorem serialization_guard_spec :
    (∀ n : RNode,
        recording_getstate n = Except.error "Cannot dump recording statistics")
      ∧ (∀ (a : FrozenAttrs) (cs : List FrozenStatistics),
          frozen_reduce (.mk (some a) cs) = Except.ok (a, cs)
            ∧ frozen_from_members a cs = .mk (some a) cs) :=
  ⟨fun _ => rfl, fun _ _ => ⟨rfl, rfl⟩⟩

/-- C7: `ensure_child` returns the existing child when one with that
identity is present (leaving the heap untouched); otherwise it constructs
a fresh node of the given kind — defaulting to the node's own kind —
seeded with the identity, inserts it into the child map, and returns it;
and a second call with the same identity and no intervening removal
returns the very same child instance and changes nothing, so the child
count is unchanged on the second call. -/
theorem ensure_child_spec (h : Heap) (self : NodeId) (code : Code)
    (k : Option RKind) (n : RNode) (hs : lookupKV h self = some n) :
    (∀ cid, lookupKV n.children code = some cid →
        ensure_child h self code k = some (h, cid))
      ∧ (lookupKV n.children code = none →
          ∃ h2, ensure_child h self code k = some (h2, freshId h)
            ∧ lookupKV h (freshId h) = none
            ∧ lookupKV h2 (freshId h) = some (newChild (k.getD n.kind) code)
            ∧ get_child h2 self code = some (freshId h)
            ∧ child_count h2 self = child_count h self + 1)
      ∧ (∀ h1 c1, ensure_child h self code k = some (h1, c1) →
          ensure_child h1 self code k = some (h1, c1)) := by
  have hself_ne : self ≠ freshId h := ne_freshId_of_in h self n hs
  refine ⟨?_, ?_, ?_⟩
  · intro cid hcid
    simp [ensure_child, hs, hcid]
  · intro habs
    refine ⟨setKV (setKV h (freshId h) (newChild (k.getD n.kind) code)) self
      { n with children := setKV n.children code (freshId h) },
      by simp [ensure_child, hs, habs], freshId_not_in h, ?_, ?_, ?_⟩
    · rw [lookupKV_setKV_ne _ _ _ _ (Ne.symm hself_ne), lookupKV_setKV_self]
    · rw [get_child, lookupKV_setKV_self]
      show lookupKV (setKV n.children code (freshId h)) code = some (freshId h)
      rw [lookupKV_setKV_self]
    · rw [child_count, lookupKV_setKV_self]
      show (setKV n.children code (freshId h)).length = child_count h self + 1
      rw [setKV_length_of_not_mem _ _ _ habs, child_count, hs]
  · intro h1 c1 he
    cases hcid : lookupKV n.children code with
    | some cid =>
      rw [ensure_child, hs] at he
      simp only [hcid] at he
      obtain ⟨rfl, rfl⟩ : h = h1 ∧ cid = c1 := by
        have := Option.some.inj he
        exact ⟨congrArg Prod.fst this, congrArg Prod.snd this⟩
      simp [ensure_child, hs, hcid]
    | none =>
      rw [ensure_child, hs] at he
      simp only [hcid] at he
      have hpair := Option.some.inj he
      have hh1 : setKV (setKV h (freshId h) (newChild (k.getD n.kind) code)) self
          { n with children := setKV n.children code (freshId h) } = h1 :=
        congrArg Prod.fst hpair
      have hc1 : freshId h = c1 := congrArg Prod.snd hpair
      subst hh1
      subst hc1
      rw [ensure_child, lookupKV_setKV_self]
      show (match lookupKV (setKV n.children code (freshId h)) code with
        | some cid => some (_, cid)
        | none => _) = _
      rw [lookupKV_setKV_self]

theorem ensure_child_spec_witness :
    ensure_child heapW 0 codeW none = some (heapW2, 1)
      ∧ ensure_child heapW2 0 codeW none = some (heapW2, 1)
      ∧ child_count heapW2 0 = 1 :=
  ⟨by decide,
    (ensure_child_spec heapW 0 codeW none rootW (by decide)).2.2 heapW2 1 (by decide),
    by decide⟩

/-- C8 counterexample: `FrozenStatistics` subclasses `Statistics`, whose
body declares `own_count = default(0)`, and `own_count` is among the
subclass's declared slots; yet constructing `FrozenStatistics()` — whose
`__init__` with no source node sets only `_children` — leaves
`own_count` unset instead of applying the inherited base-class default,
refuting the claim that defaults compose under subclassing. -/
theorem inherited_defaults_counterexample :
    lookupKV StatisticsCls.declared "own_count" = some (PyVal.pyInt 0)
      ∧ "own_count" ∈ FrozenStatisticsCls.slots
      ∧ lookupKV (construct FrozenStatisticsCls [("_children", PyVal.pyObj "list")])
          "own_count" = none := by
  decide

/-- C8 amended: construction applies exactly the constructed class's own
declared defaults — the `default(...)` declarations of its own body for
its own slots — to the attributes its constructor left unset, and leaves
already-set attributes untouched; base-class defaults are not consulted
(each class's `__defaults__` shadows the base's), so a subclass wanting a
base default must re-declare it, as `RecordingStatistics` re-declares
`own_count` and `deep_time`. -/
theorem construct_defaults_spec (c : ClsDef) (inits : List (Attr × PyVal))
    (a : Attr) :
    lookupKV (construct c inits) a
      = (lookupKV inits a <|> lookupKV (compute_defaults c) a) :=
  lookup_apply_defaults _ _ _

/-- C9 counterexample: the claim counts the existence check among the
child-map operations performed under the node's lock, but `__contains__`
accesses the child map at lock depth 0 — so not every access of the five
listed operation groups holds the lock. -/
theorem child_map_lock_counterexample :
    ¬ ∀ a ∈ get_child_accesses ++ add_child_accesses ++ remove_child_accesses
        ++ discard_child_accesses ++ ensure_child_accesses true
        ++ ensure_child_accesses false ++ contains_accesses,
      0 < a.lockDepth := by
  decide

/-- C9 amended: lookup (`get_child`), insertion (`add_child`), deletion
(`remove_child` and `discard_child`) and find-or-create (`ensure_child`,
whose inner calls re-acquire the reentrant lock) access the child map
only while holding the node's own lock; the existence check
(`__contains__`), by contrast, reads the child map without taking the
lock. -/
theorem child_map_lock_spec (present : Bool) :
    (∀ a ∈ get_child_accesses ++ add_child_accesses ++ remove_child_accesses
        ++ discard_child_accesses ++ ensure_child_accesses present,
      0 < a.lockDepth)
      ∧ ∀ a ∈ contains_accesses, a.lockDepth = 0 := by
  cases present
  · exact ⟨by decide, by decide⟩
  · exact ⟨by decide, by decide⟩

theorem child_map_lock_spec_witness :
    0 < (MapAccess.mk MapOp.lookup 1).lockDepth
      ∧ (MapAccess.mk MapOp.existCheck 0).lockDepth = 0 :=
  ⟨(child_map_lock_spec true).1 ⟨.lookup, 1⟩ (by decide),
    (child_map_lock_spec true).2 ⟨.existCheck, 0⟩ (by decide)⟩

/-- C10: a frozen node constructed with no source node has zero length
and empty iteration, but its `name`, `filename`, `lineno`, `module`,
`own_count` and `deep_time` slots are left unset, so reading
`own_count`, `deep_count`, `own_time`, or the rendered short form on it
raises `AttributeError` instead of returning a default value. -/
theorem empty_frozen_spec :
    frozen_len empty_frozen = 0
      ∧ empty_frozen.children = []
      ∧ empty_frozen.attrs = none
      ∧ empty_frozen.get_own_count = Except.error "AttributeError: own_count"
      ∧ frozen_deep_count empty_frozen = Except.error "AttributeError: own_count"
      ∧ frozen_own_time empty_frozen = Except.error "AttributeError: deep_time"
      ∧ frozen_repr empty_frozen = Except.error "AttributeError: name" := by
  refine ⟨rfl, rfl, rfl, rfl, ?_, rfl, rfl⟩
  simp [frozen_deep_count.eq_def, empty_frozen]

end Profiling
